import Mathlib

/-!
Shallow embedding of the Snowpipe streaming client
(`thermal_streaming_client.py`, class `SnowpipeStreamingClient`).

Time is modelled as natural-number seconds; HTTP exchanges are modelled by
passing the response (or a transport/HTTP error) as an explicit argument;
raised Python exceptions become explicit outcome constructors; `None` / empty
strings follow Python truthiness via `truthyOpt`.
-/

namespace ThermalStreaming

-- JSON values, the shape of the row dictionaries passed to append_rows.
-- Mutual with field/element lists so that serialization is structurally
-- recursive.
mutual
inductive JVal where
  | null : JVal
  | jbool : Bool → JVal
  | jnum : Int → JVal
  | jstr : String → JVal
  | jarr : JArr → JVal
  | jobj : JObj → JVal

inductive JArr where
  | nil : JArr
  | cons : JVal → JArr → JArr

inductive JObj where
  | nil : JObj
  | cons : String → JVal → JObj → JObj
end

/-- Escape of one character inside a JSON string literal, as in
Python `json.dumps` (the common cases). -/
def escChar (c : Char) : String :=
  if c = '"' then "\\\""
  else if c = '\\' then "\\\\"
  else if c = '\n' then "\\n"
  else if c = '\t' then "\\t"
  else if c = '\r' then "\\r"
  else String.singleton c

/-- Escape a whole string for inclusion in a JSON string literal. -/
def escapeJson (s : String) : String :=
  String.join (s.toList.map escChar)

-- Serialization of a JSON value, modelling Python json.dumps with its
-- default separators.
mutual
def dumps : JVal → String
  | .null => "null"
  | .jbool true => "true"
  | .jbool false => "false"
  | .jnum n => toString n
  | .jstr s => "\"" ++ escapeJson s ++ "\""
  | .jarr xs => "[" ++ dumpsArr xs ++ "]"
  | .jobj kvs => "\x7b" ++ dumpsObj kvs ++ "\x7d"

def dumpsArr : JArr → String
  | .nil => ""
  | .cons x .nil => dumps x
  | .cons x (.cons y tl) => dumps x ++ ", " ++ dumpsArr (.cons y tl)

def dumpsObj : JObj → String
  | .nil => ""
  | .cons k v .nil => "\"" ++ escapeJson k ++ "\": " ++ dumps v
  | .cons k v (.cons k2 v2 tl) =>
      "\"" ++ escapeJson k ++ "\": " ++ dumps v ++ ", " ++ dumpsObj (.cons k2 v2 tl)
end

/-- Newline-delimited JSON payload: models
`ndjson_data = chr(10).join(json.dumps(row) for row in rows)`. -/
def ndjson (rows : List JVal) : String :=
  String.intercalate "\n" (rows.map dumps)

/-- Python truthiness of an optional string: `None` and `""` are falsy. -/
def truthyOpt : Option String → Bool
  | none => false
  | some s => !s.isEmpty

/-- Statistics dictionary `self.stats` (the `start_time` entry is wall-clock
glue and is not part of the counters the claims talk about). -/
structure Stats where
  total_rows_sent : Nat
  total_batches : Nat
  total_bytes_sent : Nat
  errors : Nat
deriving Repr, DecidableEq

/-- Mutable client state of `SnowpipeStreamingClient`. -/
structure Session where
  ingest_host : Option String
  channel_name : String
  continuation_token : Option String
  offset_token : Nat
  scoped_token : Option String
  token_expiry : Option Nat
  stats : Stats
deriving Repr, DecidableEq

/-- Refresh condition of `_ensure_valid_token`:
`self.scoped_token is None or (self.token_expiry and time.time() >= self.token_expiry)`.
Note Python truthiness of `self.token_expiry` (`0` is falsy). -/
def tokenNeedsRefresh (now : Nat) (s : Session) : Bool :=
  s.scoped_token.isNone ||
    (match s.token_expiry with
     | none => false
     | some e => (e != 0) && decide (e ≤ now))

/-- Model of `_ensure_valid_token`: obtain a fresh scoped token when needed
and record its expiry as `time.time() + 3000`. The fresh token produced by
the JWT subsystem is passed in as `fresh`. -/
def ensure_valid_token (now : Nat) (fresh : String) (s : Session) : Session :=
  if tokenNeedsRefresh now s then
    { s with scoped_token := some fresh, token_expiry := some (now + 3000) }
  else s

/-- Outcome of an HTTP round trip: either a parsed successful response body,
or a raised `requests.exceptions.RequestException` (which covers transport
errors and, via `raise_for_status`, every 4xx/5xx status). -/
inductive HttpResult (α : Type) where
  | ok : α → HttpResult α
  | err : HttpResult α
deriving Repr, DecidableEq

/-- Parsed body of a successful append response; `next_continuation_token`
is `none` when the field is absent or null. -/
structure AppendBody where
  next_continuation_token : Option String
deriving Repr, DecidableEq

/-- Wire-visible content of one append request: the two query parameters and
the NDJSON body (`params` and `data` of the `requests.post` call). -/
structure WireRequest where
  continuationToken : String
  offsetToken : String
  payload : String
deriving Repr, DecidableEq

/-- Result of `append_rows`: the returned dictionary on success, or the
exception the call raises. -/
inductive AppendOutcome where
  | emptyOk : AppendOutcome
  | notOpened : AppendOutcome
  | httpError : WireRequest → AppendOutcome
  | success : WireRequest → AppendBody → AppendOutcome
deriving Repr, DecidableEq

/-- Request computed by `append_rows` before sending: query parameter
`continuationToken` is the stored token, `offsetToken` is
`str(self.offset_token + 1)`, and the body is the NDJSON encoding of the
rows. -/
def buildRequest (s : Session) (rows : List JVal) : WireRequest :=
  { continuationToken := s.continuation_token.getD ""
  , offsetToken := toString (s.offset_token + 1)
  , payload := ndjson rows }

/-- Model of `append_rows`. In source order: empty-rows early return, the
channel-opened check (`not self.ingest_host or not self.continuation_token`
raises `RuntimeError`), `_ensure_valid_token`, request construction, then the
HTTP exchange: on error the `errors` counter is incremented and the exception
re-raised; on success `continuation_token` is set from the response,
`offset_token` becomes the candidate offset and the counters advance. -/
def append_rows (now : Nat) (fresh : String) (resp : HttpResult AppendBody)
    (s : Session) (rows : List JVal) : Session × AppendOutcome :=
  if rows.isEmpty then (s, .emptyOk)
  else if !truthyOpt s.ingest_host || !truthyOpt s.continuation_token then
    (s, .notOpened)
  else
    let s1 := ensure_valid_token now fresh s
    let req := buildRequest s1 rows
    match resp with
    | .err =>
        ({ s1 with stats := { s1.stats with errors := s1.stats.errors + 1 } },
         .httpError req)
    | .ok body =>
        ({ s1 with
            continuation_token := body.next_continuation_token,
            offset_token := s1.offset_token + 1,
            stats := { s1.stats with
              total_rows_sent := s1.stats.total_rows_sent + rows.length,
              total_batches := s1.stats.total_batches + 1,
              total_bytes_sent := s1.stats.total_bytes_sent + (ndjson rows).length } },
         .success req body)

/-- Result of `insert_rows`: the returned row count, or the exception that
propagates out of the inner `append_rows` call. -/
inductive InsertOutcome where
  | count : Nat → InsertOutcome
  | notOpened : InsertOutcome
  | httpError : WireRequest → InsertOutcome
deriving Repr, DecidableEq

/-- Model of `insert_rows`: returns 0 for an empty list without calling
`append_rows`, otherwise delegates and returns `len(rows)`. -/
def insert_rows (now : Nat) (fresh : String) (resp : HttpResult AppendBody)
    (s : Session) (rows : List JVal) : Session × InsertOutcome :=
  if rows.isEmpty then (s, .count 0)
  else
    match append_rows now fresh resp s rows with
    | (s1, .success _ _) => (s1, .count rows.length)
    | (s1, .emptyOk) => (s1, .count rows.length)
    | (s1, .notOpened) => (s1, .notOpened)
    | (s1, .httpError r) => (s1, .httpError r)

/-- Parsed JSON body of the discovery response: `hostname` and `ingest_host`
fields, each `none` when absent or null. -/
structure DiscBody where
  hostname : Option String
  ingest_host : Option String
deriving Repr, DecidableEq

/-- Successful HTTP response of the hostname endpoint: its `Content-Type`
header, the result of `response.json()` (`Except.error` models a
`json.JSONDecodeError`), and the raw text body. -/
structure DiscResp where
  contentType : Option String
  jsonBody : Except Unit DiscBody
  text : String
deriving Repr

/-- Result of `discover_ingest_host`: the returned hostname, the raised
`ValueError` for an empty hostname, or the re-raised request exception. -/
inductive DiscOutcome where
  | ok : String → DiscOutcome
  | raisedValueError : DiscOutcome
  | raisedRequestError : DiscOutcome
deriving Repr, DecidableEq

/-- Python `a or b` on two optional strings: `a` when truthy, else `b`.
Models `data.get('hostname') or data.get('ingest_host')`. -/
def pyOr (a b : Option String) : Option String :=
  if truthyOpt a then a else b

/-- ASCII whitespace as stripped by Python `str.strip()`. -/
def isSpaceChar (c : Char) : Bool :=
  c = ' ' || c = '\t' || c = '\n' || c = '\r' || c = Char.ofNat 11 || c = Char.ofNat 12

/-- Model of Python `str.strip()`: drop whitespace from both ends. -/
def pyStrip (s : String) : String :=
  ⟨((s.toList.dropWhile isSpaceChar).reverse.dropWhile isSpaceChar).reverse⟩

/-- Whether the first list is a prefix of the second, over characters. -/
def isPrefixList : List Char → List Char → Bool
  | [], _ => true
  | _ :: _, [] => false
  | a :: as, b :: bs => a = b && isPrefixList as bs

/-- Model of Python `str.startswith(pre)`. -/
def pyStartsWith (s pre : String) : Bool := isPrefixList pre.toList s.toList

/-- Model of `discover_ingest_host`: after `_ensure_valid_token`, a JSON
content type selects the `hostname`/`ingest_host` fields of the parsed body
(a parse failure falls back to the stripped text via the
`json.JSONDecodeError` handler); a non-JSON content type uses the stripped
text body; an empty result raises `ValueError`. Note that `self.ingest_host`
is assigned before the emptiness check, so it is mutated even on the
`ValueError` paths. -/
def discover_ingest_host (now : Nat) (fresh : String)
    (resp : HttpResult DiscResp) (s : Session) : Session × DiscOutcome :=
  let s1 := ensure_valid_token now fresh s
  match resp with
  | .err => (s1, .raisedRequestError)
  | .ok r =>
    if pyStartsWith (r.contentType.getD "") "application/json" then
      match r.jsonBody with
      | .ok b =>
          let h := pyOr b.hostname b.ingest_host
          let s2 := { s1 with ingest_host := h }
          if truthyOpt h then (s2, .ok (h.getD "")) else (s2, .raisedValueError)
      | .error _ =>
          let h := pyStrip r.text
          let s2 := { s1 with ingest_host := some h }
          if h.isEmpty then (s2, .raisedValueError) else (s2, .ok h)
    else
      let h := pyStrip r.text
      let s2 := { s1 with ingest_host := some h }
      if truthyOpt (some h) then (s2, .ok h) else (s2, .raisedValueError)

/-- Nested `channel_status` object of the open-channel response. -/
structure ChannelStatus where
  last_committed_offset_token : Option Nat
deriving Repr, DecidableEq

/-- Parsed body of a successful open-channel response; `channel_status` is
`none` when the key is absent (the code then reads from `{}`). -/
structure OpenBody where
  next_continuation_token : Option String
  channel_status : Option ChannelStatus
deriving Repr, DecidableEq

/-- Result of `open_channel`: success returning the response body, a failure
of the inner host discovery, or the re-raised request exception. -/
inductive OpenOutcome where
  | opened : OpenBody → OpenOutcome
  | discoveryFailed : OpenOutcome
  | raisedRequestError : OpenOutcome
deriving Repr, DecidableEq

/-- Offset token recorded by `open_channel`:
`channel_status.get('last_committed_offset_token')`, with `None`
replaced by `0`. -/
def openOffset (body : OpenBody) : Nat :=
  match body.channel_status with
  | none => 0
  | some cs => cs.last_committed_offset_token.getD 0

/-- Model of `open_channel`: discovers the ingest host when it is not yet
set (`disc` is that exchange's response), ensures a valid token, then on a
successful PUT records `continuation_token` from
`next_continuation_token` and initializes `offset_token` from
`channel_status.last_committed_offset_token` (or 0 when `None`). -/
def open_channel (now : Nat) (fresh : String) (disc : HttpResult DiscResp)
    (resp : HttpResult OpenBody) (s : Session) : Session × OpenOutcome :=
  let d :=
    if truthyOpt s.ingest_host then (s, true)
    else
      match discover_ingest_host now fresh disc s with
      | (s1, .ok _) => (s1, true)
      | (s1, _) => (s1, false)
  if d.2 then
    let s1 := ensure_valid_token now fresh d.1
    match resp with
    | .err => (s1, .raisedRequestError)
    | .ok body =>
        ({ s1 with
            continuation_token := body.next_continuation_token,
            offset_token := openOffset body },
         .opened body)
  else (d.1, .discoveryFailed)

/-- One poll of `get_channel_status` as seen by `wait_for_commit`: either a
raised exception, or a channel-status dictionary whose
`committed_offset_token` is `none` when absent (the code then defaults
to 0). -/
def committedOf (o : Option Nat) : Nat := o.getD 0

/-- Loop body of `wait_for_commit`: `status i` is the i-th poll outcome,
`elapsed` the wall-clock seconds since the start (each iteration sleeps
`poll` seconds). The fuel argument only bounds the recursion; with
`1 ≤ poll` the loop condition `elapsed < timeout` always fails before fuel
`timeout + 1` runs out. -/
def wait_go (expected timeout poll : Nat) (status : Nat → Except Unit (Option Nat)) :
    Nat → Nat → Nat → Bool
  | 0, _, _ => false
  | fuel + 1, elapsed, i =>
    if elapsed < timeout then
      match status i with
      | .ok o =>
          if expected ≤ committedOf o then true
          else wait_go expected timeout poll status fuel (elapsed + poll) (i + 1)
      | .error _ => wait_go expected timeout poll status fuel (elapsed + poll) (i + 1)
    else false

/-- Model of `wait_for_commit`: polls the channel status until the committed
offset reaches `expected`, swallowing individual poll failures, and returns
`false` once `timeout` seconds have elapsed. -/
def wait_for_commit (expected timeout poll : Nat)
    (status : Nat → Except Unit (Option Nat)) : Bool :=
  wait_go expected timeout poll status (timeout + 1) 0 0

/-- One step of a run of successful appends: the rows of the batch, the
clock and fresh token for `_ensure_valid_token`, and the successful
response body. -/
structure StepIn where
  rows : List JVal
  now : Nat
  fresh : String
  body : AppendBody

/-- Sequential execution of `append_rows` for each step, threading the
session state and collecting the outcomes in order. -/
def runAppends : Session → List StepIn → Session × List AppendOutcome
  | s, [] => (s, [])
  | s, st :: rest =>
    let p := append_rows st.now st.fresh (.ok st.body) s st.rows
    let q := runAppends p.1 rest
    (q.1, p.2 :: q.2)

/-- Offset-token query parameter put on the wire by an append attempt, when
one was sent. -/
def sentOffset : AppendOutcome → Option String
  | .success req _ => some req.offsetToken
  | .httpError req => some req.offsetToken
  | _ => none

/-- Whether an append attempt returned successfully. -/
def isSuccess : AppendOutcome → Bool
  | .success _ _ => true
  | _ => false

/-- Concrete session with an opened channel, used to instantiate theorems. -/
def sOpen : Session :=
  { ingest_host := some "ingest.example.com"
  , channel_name := "TH_CHNL_20250721"
  , continuation_token := some "ct0"
  , offset_token := 0
  , scoped_token := some "cached"
  , token_expiry := some 9000
  , stats := ⟨0, 0, 0, 0⟩ }

/-- Concrete session that differs from `sOpen` in every field the append
request must not depend on. -/
def sOpenNoisy : Session :=
  { ingest_host := some "other.example.com"
  , channel_name := "OTHER"
  , continuation_token := some "ct0"
  , offset_token := 0
  , scoped_token := none
  , token_expiry := none
  , stats := ⟨5, 4, 3, 2⟩ }

/-- Concrete session before `open_channel`: no host, no continuation token. -/
def sClosed : Session :=
  { ingest_host := none
  , channel_name := "TH_CHNL_20250721"
  , continuation_token := none
  , offset_token := 0
  , scoped_token := none
  , token_expiry := none
  , stats := ⟨0, 0, 0, 0⟩ }

/-- Session holding a cached scoped token acquired at time 0, so that
`token_expiry` was recorded as 3000. -/
def sTok : Session :=
  { sOpen with scoped_token := some "cached", token_expiry := some 3000 }

/-- Two successful append steps used to instantiate the offset-run theorem. -/
def c4steps : List StepIn :=
  [ { rows := [JVal.null], now := 10, fresh := "f1", body := ⟨some "ct1"⟩ }
  , { rows := [JVal.null, JVal.jbool true], now := 11, fresh := "f2", body := ⟨some "ct2"⟩ } ]

/-- Status-poll trace whose first poll raises and whose later polls report a
committed offset of 5. -/
def pollTrace : Nat → Except Unit (Option Nat) :=
  fun i => if i = 0 then .error () else .ok (some 5)

/-- Status-poll trace that never reaches any positive offset. -/
def pollStuck : Nat → Except Unit (Option Nat) :=
  fun i => if i % 2 = 0 then .error () else .ok (some 0)

lemma ensure_fields (now : Nat) (fresh : String) (s : Session) :
    (ensure_valid_token now fresh s).ingest_host = s.ingest_host
    ∧ (ensure_valid_token now fresh s).continuation_token = s.continuation_token
    ∧ (ensure_valid_token now fresh s).offset_token = s.offset_token
    ∧ (ensure_valid_token now fresh s).stats = s.stats := by
  unfold ensure_valid_token
  split <;> exact ⟨rfl, rfl, rfl, rfl⟩

lemma buildRequest_ensure (now : Nat) (fresh : String) (s : Session) (rows : List JVal) :
    buildRequest (ensure_valid_token now fresh s) rows = buildRequest s rows := by
  unfold buildRequest ensure_valid_token
  split <;> rfl

/-- C1 counterexample: an append against `sOpen` (whose stored continuation
token is `"ct0"`) succeeds with a response body lacking
`next_continuation_token`, yet the stored token is not kept: it becomes
`none`. -/
theorem c1_counterexample :
    isSuccess (append_rows 10 "f" (.ok ⟨none⟩) sOpen [JVal.null]).2 = true
    ∧ (append_rows 10 "f" (.ok ⟨none⟩) sOpen [JVal.null]).1.continuation_token = none
    ∧ sOpen.continuation_token = some "ct0" := by
  refine ⟨rfl, rfl, rfl⟩

/-- C1 amended: on every successful append the stored continuation token is
unconditionally replaced by the response's `next_continuation_token`,
becoming `none` when the field is absent; the previous token is never
kept. -/
theorem append_overwrites_continuation (now : Nat) (fresh : String)
    (body : AppendBody) (s : Session) (rows : List JVal)
    (hr : rows.isEmpty = false)
    (hh : truthyOpt s.ingest_host = true)
    (hc : truthyOpt s.continuation_token = true) :
    (append_rows now fresh (.ok body) s rows).1.continuation_token =
      body.next_continuation_token := by
  simp [append_rows, hr, hh, hc]

/-- C1 amended, witness at a concrete input. -/
theorem append_overwrites_continuation_witness :
    (append_rows 10 "f" (.ok ⟨some "ct1"⟩) sOpen [JVal.null]).1.continuation_token =
      some "ct1" :=
  append_overwrites_continuation 10 "f" ⟨some "ct1"⟩ sOpen [JVal.null] rfl rfl rfl

/-- C2 counterexample: for a token acquired at time 0 (so `token_expiry` was
recorded as 3000), the validity check at time 2900 returns the cached token
unchanged; it does not trigger a refresh as the claim states. -/
theorem c2_counterexample :
    ensure_valid_token 2900 "freshtok" sTok = sTok
    ∧ sTok.scoped_token = some "cached"
    ∧ sTok.token_expiry = some 3000 := by
  refine ⟨rfl, rfl, rfl⟩

/-- C2 amended: the cached token is reused exactly while `now < token_expiry`
and refreshed when `now ≥ token_expiry`, where `token_expiry` is recorded as
acquisition time + 3000 s; with acquisition at 0 both 2500 and 2900 return
the cached token, and a refresh first triggers at 3000. -/
theorem ensure_valid_token_margin (now : Nat) (fresh : String) (s : Session)
    (t : String) (e : Nat)
    (hs : s.scoped_token = some t) (he : s.token_expiry = some e) (he0 : e ≠ 0) :
    (now < e → ensure_valid_token now fresh s = s)
    ∧ (e ≤ now → ensure_valid_token now fresh s =
        { s with scoped_token := some fresh, token_expiry := some (now + 3000) }) := by
  constructor
  · intro h
    have hcond : tokenNeedsRefresh now s = false := by
      simp [tokenNeedsRefresh, hs, he]
      omega
    simp [ensure_valid_token, hcond]
  · intro h
    have hcond : tokenNeedsRefresh now s = true := by
      simp [tokenNeedsRefresh, hs, he]
      omega
    simp [ensure_valid_token, hcond]

/-- C2 amended, witness at a concrete input: a call 2500 s after acquisition
returns the cached token unchanged. -/
theorem ensure_valid_token_margin_witness :
    ensure_valid_token 2500 "freshtok" sTok = sTok :=
  (ensure_valid_token_margin 2500 "freshtok" sTok "cached" 3000 rfl rfl
    (by decide)).1 (by decide)

/-- C6: appending an empty row list returns immediately with a success
result (the empty dictionary, count 0 for `insert_rows`), independently of
any HTTP response, and leaves every field of the session state and every
statistics counter unchanged. -/
theorem append_empty_noop (now : Nat) (fresh : String)
    (resp : HttpResult AppendBody) (s : Session) :
    append_rows now fresh resp s [] = (s, .emptyOk)
    ∧ insert_rows now fresh resp s [] = (s, .count 0) :=
  ⟨rfl, rfl⟩

/-- C10: a non-empty append against an unopened channel (ingest host not
discovered, or continuation token still `None`) raises `RuntimeError`
before any network exchange: the result does not depend on the HTTP
response and the session, including every statistics counter, is returned
unchanged. -/
theorem append_not_opened (now : Nat) (fresh : String)
    (resp : HttpResult AppendBody) (s : Session) (rows : List JVal)
    (hr : rows.isEmpty = false)
    (h : truthyOpt s.ingest_host = false ∨ truthyOpt s.continuation_token = false) :
    append_rows now fresh resp s rows = (s, .notOpened) := by
  rcases h with h | h <;> simp [append_rows, hr, h]

/-- C10 witness at a concrete input. -/
theorem append_not_opened_witness :
    append_rows 0 "f" .err sClosed [JVal.null] = (sClosed, .notOpened) :=
  append_not_opened 0 "f" .err sClosed [JVal.null] rfl (Or.inl rfl)

/-- C3: a non-empty append on an opened channel that fails with an HTTP or
transport error increments the error counter, leaves `offset_token`,
`continuation_token` and the rows/batches/bytes counters unchanged, and
re-raises the error (the outcome is the raised exception carrying the
request that was attempted, not a success). -/
theorem append_error_frame (now : Nat) (fresh : String) (s : Session)
    (rows : List JVal)
    (hr : rows.isEmpty = false)
    (hh : truthyOpt s.ingest_host = true)
    (hc : truthyOpt s.continuation_token = true) :
    (append_rows now fresh .err s rows).1.offset_token = s.offset_token
    ∧ (append_rows now fresh .err s rows).1.continuation_token = s.continuation_token
    ∧ (append_rows now fresh .err s rows).1.stats.errors = s.stats.errors + 1
    ∧ (append_rows now fresh .err s rows).1.stats.total_rows_sent = s.stats.total_rows_sent
    ∧ (append_rows now fresh .err s rows).1.stats.total_batches = s.stats.total_batches
    ∧ (append_rows now fresh .err s rows).1.stats.total_bytes_sent = s.stats.total_bytes_sent
    ∧ (append_rows now fresh .err s rows).2 = .httpError (buildRequest s rows) := by
  have he := ensure_fields now fresh s
  simp [append_rows, hr, hh, hc, buildRequest_ensure, he.1, he.2.1, he.2.2.1, he.2.2.2]

/-- C3 witness at a concrete input. -/
theorem append_error_frame_witness :
    (append_rows 10 "f" .err sOpen [JVal.null]).1.stats.errors = sOpen.stats.errors + 1
    ∧ (append_rows 10 "f" .err sOpen [JVal.null]).1.offset_token = sOpen.offset_token :=
  ⟨(append_error_frame 10 "f" sOpen [JVal.null] rfl rfl rfl).2.2.1,
   (append_error_frame 10 "f" sOpen [JVal.null] rfl rfl rfl).1⟩

lemma append_err_state_request (now : Nat) (fresh : String) (s : Session)
    (rows rows2 : List JVal) :
    buildRequest (append_rows now fresh .err s rows).1 rows2 = buildRequest s rows2 := by
  have he := ensure_fields now fresh s
  unfold append_rows
  split
  · rfl
  · split
    · rfl
    · simp only [buildRequest]
      rw [he.2.1, he.2.2.1]

/-- C5: two append attempts from identical relevant in-memory state (same
`offset_token`, same `continuation_token`) with the same rows compute the
identical candidate offset and identical NDJSON payload bytes (the whole
wire request coincides); a failed append sends exactly that request and
leaves the state so that a retry rebuilds the identical request. -/
theorem append_retry_idempotent (s1 s2 : Session) (rows : List JVal)
    (now : Nat) (fresh : String)
    (hr : rows.isEmpty = false)
    (hh : truthyOpt s1.ingest_host = true)
    (hcT : truthyOpt s1.continuation_token = true)
    (ho : s1.offset_token = s2.offset_token)
    (hc : s1.continuation_token = s2.continuation_token) :
    buildRequest s1 rows = buildRequest s2 rows
    ∧ (append_rows now fresh .err s1 rows).2 = .httpError (buildRequest s1 rows)
    ∧ buildRequest (append_rows now fresh .err s1 rows).1 rows = buildRequest s1 rows := by
  refine ⟨?_, (append_error_frame now fresh s1 rows hr hh hcT).2.2.2.2.2.2, ?_⟩
  · unfold buildRequest
    rw [ho, hc]
  · exact append_err_state_request now fresh s1 rows rows

/-- C5 witness at a concrete input: `sOpenNoisy` differs from `sOpen` in
host, channel name, token cache and statistics, yet the computed request
coincides. -/
theorem append_retry_idempotent_witness :
    buildRequest sOpen [JVal.null] = buildRequest sOpenNoisy [JVal.null] :=
  (append_retry_idempotent sOpen sOpenNoisy [JVal.null] 10 "f" rfl rfl rfl rfl rfl).1

/-- C7: a successful `open_channel` on a session with a discovered ingest
host stores the response's `next_continuation_token` as the continuation
token and initializes `offset_token` to the server-reported
`channel_status.last_committed_offset_token`, or to 0 when that field (or
the whole `channel_status` object) is null/absent. -/
theorem open_channel_success (now : Nat) (fresh : String)
    (disc : HttpResult DiscResp) (body : OpenBody) (s : Session)
    (hh : truthyOpt s.ingest_host = true) :
    (open_channel now fresh disc (.ok body) s).1.continuation_token =
        body.next_continuation_token
    ∧ (open_channel now fresh disc (.ok body) s).1.offset_token =
        (match body.channel_status with
         | none => 0
         | some cs => cs.last_committed_offset_token.getD 0)
    ∧ (open_channel now fresh disc (.ok body) s).2 = .opened body := by
  refine ⟨?_, ?_, ?_⟩ <;> simp [open_channel, hh, openOffset]

/-- C7 witness at a concrete input: a server-reported committed offset of 17
initializes the local offset to 17; an absent one initializes it to 0. -/
theorem open_channel_success_witness :
    (open_channel 10 "f" .err (.ok ⟨some "ct9", some ⟨some 17⟩⟩) sOpen).1.offset_token = 17
    ∧ (open_channel 10 "f" .err (.ok ⟨some "ct9", some ⟨none⟩⟩) sOpen).1.offset_token = 0 :=
  ⟨(open_channel_success 10 "f" .err ⟨some "ct9", some ⟨some 17⟩⟩ sOpen rfl).2.1,
   (open_channel_success 10 "f" .err ⟨some "ct9", some ⟨none⟩⟩ sOpen rfl).2.1⟩

/-- C8: on a successful discovery response, a `Content-Type` starting with
`application/json` selects the parsed body's `hostname` field with
`ingest_host` as fallback (Python `or`), any other content type selects the
whitespace-stripped text body, and an empty resulting host raises
`ValueError` instead of returning. -/
theorem discover_host_selection (now : Nat) (fresh : String) (s : Session)
    (r : DiscResp) (b : DiscBody) :
    (pyStartsWith (r.contentType.getD "") "application/json" = true →
      r.jsonBody = .ok b →
      ((truthyOpt (pyOr b.hostname b.ingest_host) = true →
         (discover_ingest_host now fresh (.ok r) s).2 =
           .ok ((pyOr b.hostname b.ingest_host).getD ""))
       ∧ (truthyOpt (pyOr b.hostname b.ingest_host) = false →
         (discover_ingest_host now fresh (.ok r) s).2 = .raisedValueError)))
    ∧ (pyStartsWith (r.contentType.getD "") "application/json" = false →
      (((pyStrip r.text).isEmpty = false →
         (discover_ingest_host now fresh (.ok r) s).2 = .ok (pyStrip r.text))
       ∧ ((pyStrip r.text).isEmpty = true →
         (discover_ingest_host now fresh (.ok r) s).2 = .raisedValueError))) := by
  refine ⟨fun hct hb => ⟨fun ht => ?_, fun ht => ?_⟩,
          fun hct => ⟨fun ht => ?_, fun ht => ?_⟩⟩
  · simp [discover_ingest_host, hct, hb, ht]
  · simp [discover_ingest_host, hct, hb, ht]
  · simp [discover_ingest_host, hct, truthyOpt, ht]
  · simp [discover_ingest_host, hct, truthyOpt, ht]

/-- C8 witness at the spec's concrete inputs: a non-JSON response with body
`"abc.ingest.example.com"` resolves to that host; a JSON body with
`hostname = "xyz"` resolves to `"xyz"`. -/
theorem discover_host_selection_witness :
    (discover_ingest_host 0 "f" (.ok ⟨none, .error (), "abc.ingest.example.com"⟩) sClosed).2 =
      .ok "abc.ingest.example.com"
    ∧ (discover_ingest_host 0 "f"
        (.ok ⟨some "application/json", .ok ⟨some "xyz", none⟩, ""⟩) sClosed).2 =
      .ok "xyz" :=
  ⟨by
    have h := ((discover_host_selection 0 "f" sClosed
      ⟨none, .error (), "abc.ingest.example.com"⟩ ⟨none, none⟩).2 rfl).1 (by decide)
    have ht : pyStrip "abc.ingest.example.com" = "abc.ingest.example.com" := by decide
    simpa [ht] using h,
   by
    have h := ((discover_host_selection 0 "f" sClosed
      ⟨some "application/json", .ok ⟨some "xyz", none⟩, ""⟩ ⟨some "xyz", none⟩).1
      (by decide) rfl).1 (by decide)
    simpa using h⟩

lemma wait_go_true_iff (expected timeout poll : Nat)
    (status : Nat → Except Unit (Option Nat)) (hp : 1 ≤ poll) :
    ∀ fuel i, timeout ≤ i * poll + fuel →
      (wait_go expected timeout poll status fuel (i * poll) i = true ↔
        ∃ k, (i + k) * poll < timeout ∧
          ∃ o, status (i + k) = .ok o ∧ expected ≤ committedOf o) := by
  intro fuel
  induction fuel with
  | zero =>
    intro i hfuel
    constructor
    · intro h
      simp [wait_go] at h
    · rintro ⟨k, hk, -⟩
      exfalso
      have hmono : i * poll ≤ (i + k) * poll :=
        Nat.mul_le_mul (Nat.le_add_right i k) (le_refl poll)
      omega
  | succ fuel ih =>
    intro i hfuel
    have hx : i * poll + poll = (i + 1) * poll := by ring
    have hx2 : (i + 1) * poll = i * poll + poll := by ring
    by_cases hit : i * poll < timeout
    · cases hst : status i with
      | ok o =>
        by_cases hok : expected ≤ committedOf o
        · constructor
          · intro _
            refine ⟨0, ?_, o, ?_, hok⟩
            · simpa using hit
            · simpa using hst
          · intro _
            simp only [wait_go, hst]
            rw [if_pos hit, if_pos hok]
        · have ihs := ih (i + 1) (by omega)
          have hL : wait_go expected timeout poll status (fuel + 1) (i * poll) i
              = wait_go expected timeout poll status fuel ((i + 1) * poll) (i + 1) := by
            simp only [wait_go, hst]
            rw [if_pos hit, if_neg hok, hx]
          rw [hL, ihs]
          constructor
          · rintro ⟨k, hk, o2, hst2, hle2⟩
            refine ⟨k + 1, ?_, o2, ?_, hle2⟩
            · have he : i + (k + 1) = i + 1 + k := by omega
              rw [he]; exact hk
            · have he : i + (k + 1) = i + 1 + k := by omega
              rw [he]; exact hst2
          · rintro ⟨k, hk, o2, hst2, hle2⟩
            cases k with
            | zero =>
              exfalso
              rw [Nat.add_zero] at hst2
              rw [hst] at hst2
              injection hst2 with ho
              exact hok (by rw [ho]; exact hle2)
            | succ k =>
              refine ⟨k, ?_, o2, ?_, hle2⟩
              · have he : i + 1 + k = i + (k + 1) := by omega
                rw [he]; exact hk
              · have he : i + 1 + k = i + (k + 1) := by omega
                rw [he]; exact hst2
      | error e =>
        have ihs := ih (i + 1) (by omega)
        have hL : wait_go expected timeout poll status (fuel + 1) (i * poll) i
            = wait_go expected timeout poll status fuel ((i + 1) * poll) (i + 1) := by
          simp only [wait_go, hst]
          rw [if_pos hit, hx]
        rw [hL, ihs]
        constructor
        · rintro ⟨k, hk, o2, hst2, hle2⟩
          refine ⟨k + 1, ?_, o2, ?_, hle2⟩
          · have he : i + (k + 1) = i + 1 + k := by omega
            rw [he]; exact hk
          · have he : i + (k + 1) = i + 1 + k := by omega
            rw [he]; exact hst2
        · rintro ⟨k, hk, o2, hst2, hle2⟩
          cases k with
          | zero =>
            exfalso
            rw [Nat.add_zero] at hst2
            rw [hst] at hst2
            exact Except.noConfusion hst2
          | succ k =>
            refine ⟨k, ?_, o2, ?_, hle2⟩
            · have he : i + 1 + k = i + (k + 1) := by omega
              rw [he]; exact hk
            · have he : i + 1 + k = i + (k + 1) := by omega
              rw [he]; exact hst2
    · have hL : wait_go expected timeout poll status (fuel + 1) (i * poll) i = false := by
        simp only [wait_go]
        rw [if_neg hit]
      rw [hL]
      constructor
      · intro h
        simp at h
      · rintro ⟨k, hk, -⟩
        exfalso
        have hmono : i * poll ≤ (i + k) * poll :=
          Nat.mul_le_mul (Nat.le_add_right i k) (le_refl poll)
        omega

/-- C9: `wait_for_commit` returns `true` exactly when some status poll made
while the wall clock is still inside the timeout window (the i-th poll runs
at elapsed time `i * poll`) reports a committed offset reaching the
expected one — so it returns true as soon as any poll confirms, and every
individual poll failure or low reading before that is retried rather than
propagated (the function is total and Bool-valued, no exception escapes);
consequently, when no poll within the timeout confirms, it returns `false`
rather than an error. -/
theorem wait_for_commit_spec (expected timeout poll : Nat)
    (status : Nat → Except Unit (Option Nat)) (hp : 1 ≤ poll) :
    (wait_for_commit expected timeout poll status = true ↔
      ∃ i, i * poll < timeout ∧ ∃ o, status i = .ok o ∧ expected ≤ committedOf o)
    ∧ ((∀ i, i * poll < timeout → ∀ o, status i = .ok o → committedOf o < expected) →
      wait_for_commit expected timeout poll status = false) := by
  have hiff := wait_go_true_iff expected timeout poll status hp (timeout + 1) 0 (by omega)
  rw [Nat.zero_mul] at hiff
  simp only [Nat.zero_add] at hiff
  constructor
  · unfold wait_for_commit
    exact hiff
  · intro h
    unfold wait_for_commit
    cases hb : wait_go expected timeout poll status (timeout + 1) 0 0 with
    | false => rfl
    | true =>
      exfalso
      obtain ⟨i, hi, o, hst, hle⟩ := hiff.mp hb
      have := h i hi o hst
      omega

/-- C9 witness at concrete inputs: a trace whose first poll raises and whose
second reports offset 5 confirms target 3 within a 10 s timeout; a trace
stuck below the target yields `false`, not an error. -/
theorem wait_for_commit_spec_witness :
    wait_for_commit 3 10 2 pollTrace = true
    ∧ wait_for_commit 3 10 2 pollStuck = false :=
  ⟨(wait_for_commit_spec 3 10 2 pollTrace (by decide)).1.mpr
      ⟨1, by decide, some 5, rfl, by decide⟩,
   (wait_for_commit_spec 3 10 2 pollStuck (by decide)).2
      (by
        intro i hi o hst
        unfold pollStuck at hst
        split at hst
        · cases hst
        · cases hst; decide)⟩

lemma append_ok_fields (now : Nat) (fresh : String) (body : AppendBody)
    (s : Session) (rows : List JVal)
    (hr : rows.isEmpty = false)
    (hh : truthyOpt s.ingest_host = true)
    (hc : truthyOpt s.continuation_token = true) :
    (append_rows now fresh (.ok body) s rows).1.ingest_host = s.ingest_host
    ∧ (append_rows now fresh (.ok body) s rows).1.continuation_token =
        body.next_continuation_token
    ∧ (append_rows now fresh (.ok body) s rows).1.offset_token = s.offset_token + 1
    ∧ (append_rows now fresh (.ok body) s rows).2 =
        .success (buildRequest s rows) body := by
  have he := ensure_fields now fresh s
  simp [append_rows, hr, hh, hc, buildRequest_ensure, he.1, he.2.2.1]

/-- C4: across any run of successful appends from an opened session, the
wire offset of the k-th batch is the string of `offset_token + (k + 1)`
(one per batch, independent of row counts, never skipping or repeating) and
the final stored offset equals the initial one plus the number of
batches. -/
theorem append_run_offsets :
    ∀ (steps : List StepIn) (s : Session),
      truthyOpt s.ingest_host = true →
      truthyOpt s.continuation_token = true →
      (∀ st ∈ steps,
        st.rows.isEmpty = false ∧ truthyOpt st.body.next_continuation_token = true) →
      ((runAppends s steps).1.offset_token = s.offset_token + steps.length
       ∧ ∀ k, k < steps.length →
          sentOffset ((runAppends s steps).2.getD k .emptyOk) =
            some (toString (s.offset_token + (k + 1)))) := by
  intro steps
  induction steps with
  | nil =>
    intro s hh hc hst
    exact ⟨rfl, fun k hk => absurd hk (by simp)⟩
  | cons st rest ih =>
    intro s hh hc hst
    have hhead := hst st (by simp)
    have hrest : ∀ st2 ∈ rest,
        st2.rows.isEmpty = false ∧ truthyOpt st2.body.next_continuation_token = true :=
      fun st2 h2 => hst st2 (by simp [h2])
    have hf := append_ok_fields st.now st.fresh st.body s st.rows hhead.1 hh hc
    have hih := ih (append_rows st.now st.fresh (.ok st.body) s st.rows).1
      (by rw [hf.1]; exact hh) (by rw [hf.2.1]; exact hhead.2) hrest
    constructor
    · show (runAppends _ rest).1.offset_token = _
      rw [hih.1, hf.2.2.1]
      simp only [List.length_cons]
      omega
    · intro k hk
      cases k with
      | zero =>
        show sentOffset ((append_rows st.now st.fresh (.ok st.body) s st.rows).2) = _
        rw [hf.2.2.2]
        rfl
      | succ k =>
        show sentOffset ((runAppends _ rest).2.getD k .emptyOk) = _
        have := hih.2 k (by simpa using hk)
        rw [this, hf.2.2.1]
        congr 2
        omega

/-- C4 witness at a concrete input: two successful batches (of 1 and 2 rows)
from `sOpen` (offset 0) advance the stored offset to 2. -/
theorem append_run_offsets_witness :
    (runAppends sOpen c4steps).1.offset_token = 2 :=
  (append_run_offsets c4steps sOpen rfl rfl (by decide)).1

end ThermalStreaming
